import Mathlib

/-!
Verification of the lost-and-found report service.

The repository contains three near-duplicate Flask variants:
* app.py : model ReportedItem (with a date field and a file-upload proof),
  routes dashboard and report, helper allowed_file;
* safety.py and search.py : identical model Item (with contact_info, a
  text proof field, a status column defaulting to "Lost"), routes report
  and update.

Each handler is embedded as a pure function on an explicit store state.
-/

/-! ## app.py embedding -/

/-- ALLOWED_EXTENSIONS from app.py. -/
def ALLOWED_EXTENSIONS : List String := ["png", "jpg", "jpeg", "gif"]

/-- filename.rsplit('.', 1)[1]: the characters after the last dot. -/
def extAfterLastDot (l : List Char) : List Char :=
  (l.reverse.takeWhile (fun c => c != '.')).reverse

/-- allowed_file from app.py:
    '.' in filename and filename.rsplit('.', 1)[1].lower() in ALLOWED_EXTENSIONS -/
def allowed_file (filename : String) : Bool :=
  filename.data.contains '.' &&
    ALLOWED_EXTENSIONS.contains
      (String.mk ((extAfterLastDot filename.data).map Char.toLower))

/-- Modelled from the spec: secure_filename is the external werkzeug
    sanitizer (File Store collaborator, spec section 6).  It keeps
    alphanumeric characters, dots, dashes and underscores and drops the
    rest; its details decide no claim here. -/
def secure_filename (filename : String) : String :=
  String.mk (filename.data.filter
    (fun c => c.isAlphanum || c == '.' || c == '-' || c == '_'))

/-- The ReportedItem model of app.py.  proof is a nullable=False column,
    date is stored as a formatted string. -/
structure ReportedItem where
  id : Nat
  item_name : String
  description : String
  status : String
  reported_by : String
  address : String
  date : String
  proof : String
  deriving Repr, DecidableEq

/-- State touched by app.py: the ReportedItem table (with the
    autoincrement counter of the primary key) and the upload folder. -/
structure AppState where
  store : List ReportedItem
  nextId : Nat
  savedFiles : List String
  deriving Repr, DecidableEq

/-- The empty database, ids starting at 1 as in sqlite. -/
def emptyAppState : AppState := { store := [], nextId := 1, savedFiles := [] }

/-- A POST submission to the report route of app.py: the four form
    fields it reads plus the proof file part.  none stands for an absent
    or empty upload (a FileStorage with an empty filename is falsy). -/
structure AppSubmission where
  item_name : String
  description : String
  status : String
  address : String
  proof : Option String
  deriving Repr, DecidableEq

/-- The POST branch of the report route of app.py.  Everything -- saving
    the file, constructing the ReportedItem, add and commit -- sits inside
    the branch if file and allowed_file(file.filename); otherwise the
    handler just re-renders the form.  now is the value of
    datetime.now().strftime("%Y-%m-%d %H:%M:%S").  Returns the new state
    and the id of the created row, if any. -/
def report (st : AppState) (sub : AppSubmission) (now : String) :
    AppState × Option Nat :=
  match sub.proof with
  | none => (st, none)
  | some fname =>
    if fname ≠ "" && allowed_file fname then
      let filename := secure_filename fname
      let new_item : ReportedItem :=
        { id := st.nextId
          item_name := sub.item_name
          description := sub.description
          status := sub.status
          reported_by := "Anonymous"
          address := sub.address
          date := now
          proof := filename }
      ({ store := st.store ++ [new_item]
         nextId := st.nextId + 1
         savedFiles := st.savedFiles ++ [filename] }, some st.nextId)
    else
      (st, none)

/-- Item.query.get(id): first row whose primary key equals id. -/
def getByIdApp (store : List ReportedItem) (i : Nat) : Option ReportedItem :=
  store.find? (fun it => it.id == i)

/-- Lexicographic order on character lists: the memcmp text ordering
    sqlite applies to a string column. -/
def charListLe : List Char → List Char → Bool
  | [], _ => true
  | _ :: _, [] => false
  | a :: as, b :: bs => if a < b then true else if b < a then false else charListLe as bs

/-- The ordering of the date column: sqlite text comparison of the
    "%Y-%m-%d %H:%M:%S" strings. -/
def dateLe (a b : String) : Bool := charListLe a.data b.data

/-- ReportedItem.query.order_by(ReportedItem.date.desc()): the table
    sorted by the date column, descending. -/
def sortByDateDesc (store : List ReportedItem) : List ReportedItem :=
  store.mergeSort (fun a b => dateLe b.date a.date)

/-- The read-model assembled by the dashboard route of app.py. -/
structure DashboardData where
  total_lost : Nat
  total_found : Nat
  recent_activity : List ReportedItem
  deriving Repr, DecidableEq

/-- The dashboard route of app.py:
    filter_by(status="Lost").count(), filter_by(status="Found").count(),
    order_by(date.desc()).limit(5).all(). -/
def dashboard (store : List ReportedItem) : DashboardData :=
  { total_lost := (store.filter (fun it => it.status == "Lost")).length
    total_found := (store.filter (fun it => it.status == "Found")).length
    recent_activity := (sortByDateDesc store).take 5 }

/-! ## safety.py / search.py embedding

safety.py and search.py define the same Item model and the same report
and update routes (safety.py adds only a sample-data hook).  They are
embedded once. -/

/-- The Item model of safety.py and search.py.  status has column
    default "Lost"; proof and address are nullable. -/
structure Item where
  id : Nat
  item_name : String
  description : String
  reported_by : String
  contact_info : String
  status : String
  proof : Option String
  address : Option String
  deriving Repr, DecidableEq

/-- The Item table with its autoincrement counter. -/
structure ItemStore where
  items : List Item
  nextId : Nat
  deriving Repr, DecidableEq

/-- The empty Item table, ids starting at 1 as in sqlite. -/
def emptyItemStore : ItemStore := { items := [], nextId := 1 }

/-- A POST submission to the report route of safety.py / search.py: the
    six form fields the handler reads.  There is no status field: the
    handler never reads one and the Item constructor is not passed one. -/
structure ItemSubmission where
  item_name : String
  description : String
  reported_by : String
  contact_info : String
  proof : String
  address : String
  deriving Repr, DecidableEq

/-- The POST branch of the report route of safety.py / search.py.  The
    Item is built without a status argument, so the column default
    "Lost" applies.  No field is validated.  Returns the new store and
    the id of the created row. -/
def reportItem (st : ItemStore) (sub : ItemSubmission) : ItemStore × Nat :=
  let new_item : Item :=
    { id := st.nextId
      item_name := sub.item_name
      description := sub.description
      reported_by := sub.reported_by
      contact_info := sub.contact_info
      status := "Lost"
      proof := some sub.proof
      address := some sub.address }
  ({ items := st.items ++ [new_item], nextId := st.nextId + 1 }, st.nextId)

/-- Item.query.get_or_404(item_id) / Item.query.get(id). -/
def getById (st : ItemStore) (i : Nat) : Option Item :=
  st.items.find? (fun it => it.id == i)

/-- The error surfaced when get_or_404 aborts the request. -/
inductive UpdateError where
  | notFound
  deriving Repr, DecidableEq

/-- The POST branch of the update route of safety.py / search.py:
    item = Item.query.get_or_404(item_id), then item.status is assigned
    the posted status field, then commit.
    Aborts with 404 NotFound when no row has the id;
    otherwise writes newStatus, unvalidated, into the status column of
    that row and touches nothing else. -/
def update (st : ItemStore) (item_id : Nat) (newStatus : String) :
    Except UpdateError ItemStore :=
  match st.items.find? (fun it => it.id == item_id) with
  | none => Except.error UpdateError.notFound
  | some _ =>
      Except.ok { st with
        items := st.items.map
          (fun it => if it.id == item_id then { it with status := newStatus } else it) }

/-- listAll of the spec store interface: Item.query.all(). -/
def listAll (st : ItemStore) : List Item := st.items

/-- countByStatus of the spec store interface over the Item table
    (app.py realizes it as filter_by(status=s).count()). -/
def countItemsByStatus (st : ItemStore) (s : String) : Nat :=
  (st.items.filter (fun it => it.status == s)).length

/-! ## Traces of store operations -/

/-- One request against the safety.py / search.py store: a POST to
    report or a POST to update. -/
inductive StoreOp where
  | reportOp (sub : ItemSubmission)
  | updateOp (item_id : Nat) (newStatus : String)
  deriving Repr, DecidableEq

/-- Run one request; a failing update (404) leaves the store as it was. -/
def runOp (st : ItemStore) (op : StoreOp) : ItemStore :=
  match op with
  | StoreOp.reportOp sub => (reportItem st sub).1
  | StoreOp.updateOp i ns =>
      match update st i ns with
      | Except.ok st' => st'
      | Except.error _ => st

/-- Run a sequence of requests. -/
def runOps (st : ItemStore) (ops : List StoreOp) : ItemStore :=
  ops.foldl runOp st

/-- A sequence of POSTs to the report route of app.py, each with the
    timestamp datetime.now() produced for it. -/
def appTrace (st : AppState) (ops : List (AppSubmission × String)) : AppState :=
  ops.foldl (fun s p => (report s p.1 p.2).1) st

/-! ## Concrete fixtures -/

/-- The spec scenario submission: Wallet / Black leather / Lost, no upload. -/
def walletSub : AppSubmission :=
  { item_name := "Wallet", description := "Black leather", status := "Lost"
    address := "Building B, Room 202", proof := none }

/-- The same submission with an upload named photo.exe. -/
def exeSub : AppSubmission := { walletSub with proof := some "photo.exe" }

/-- The same submission with an upload named photo.jpg. -/
def jpgSub : AppSubmission := { walletSub with proof := some "photo.jpg" }

/-- The sample Item of safety.py. -/
def sampleItem : Item :=
  { id := 1, item_name := "Lost Wallet"
    description := "A black leather wallet with cash and cards."
    reported_by := "Jane Smith", contact_info := "jane.smith@example.com"
    status := "Lost", proof := none, address := some "Building B, Room 202" }

/-- A one-row Item table holding sampleItem. -/
def oneItemStore : ItemStore := { items := [sampleItem], nextId := 2 }

/-- A submission to the safety.py / search.py report route. -/
def lampSub : ItemSubmission :=
  { item_name := "Desk Lamp", description := "Small silver lamp"
    reported_by := "Bob", contact_info := "bob@example.com"
    proof := "receipt", address := "Room 101" }

/-- The rewrite the update route commits: the row with the given id gets
    the new status, every other row is mapped to itself. -/
def setStatusAll (l : List Item) (i : Nat) (ns : String) : List Item :=
  l.map (fun x => if x.id == i then { x with status := ns } else x)

/-- The condition under which a request preserves the two-value status
enum: reports always do (the column default is Lost); updates do when
the new status is one of the two enum values. -/
def opStatusOk : StoreOp → Prop
  | StoreOp.reportOp _ => True
  | StoreOp.updateOp _ ns => ns = "Lost" ∨ ns = "Found"

/-- A run that reports one item and then updates it to status "Banana". -/
def banOps : List StoreOp :=
  [StoreOp.reportOp lampSub, StoreOp.updateOp 1 "Banana"]

/-- A run that reports one item and then updates it to Found. -/
def goodOps : List StoreOp :=
  [StoreOp.reportOp lampSub, StoreOp.updateOp 1 "Found"]

/-- A two-request run with non-decreasing timestamps and accepted jpg
uploads. -/
def monoOps : List (AppSubmission × String) :=
  [(jpgSub, "2024-01-01 10:00:00"), (jpgSub, "2024-01-02 09:30:00")]

/-! ## C1 / C10: what the app.py report route does with a rejected or
absent upload -/

/-- C1 counterexample: submitting the spec scenario with an upload named
photo.exe to the app.py report route creates nothing at all -- the state
is returned unchanged and no id is produced -- so no item with a null
proof is created, contrary to the claim. -/
theorem rejected_upload_creates_no_item_cex :
    report emptyAppState exeSub "2024-01-01 10:00:00" = (emptyAppState, none) ∧
    (report emptyAppState exeSub "2024-01-01 10:00:00").1.store.length = 0 := by
  constructor
  · rfl
  · rfl

/-- C1 (amended): for every submission whose proof upload has a filename
rejected by the extension whitelist, the app.py report route creates no
item at all and raises no error: it returns the state unchanged and the
whole submission is silently dropped. -/
theorem rejected_upload_drops_submission
    (st : AppState) (sub : AppSubmission) (now f : String)
    (hf : sub.proof = some f) (hrej : allowed_file f = false) :
    report st sub now = (st, none) := by
  simp [report, hf, hrej]

/-- Witness for rejected_upload_drops_submission at the photo.exe
scenario. -/
theorem rejected_upload_drops_submission_wit :
    exeSub.proof = some "photo.exe" ∧ allowed_file "photo.exe" = false ∧
    report emptyAppState exeSub "2024-01-01 10:00:00" = (emptyAppState, none) :=
  ⟨rfl, by decide,
    rejected_upload_drops_submission emptyAppState exeSub "2024-01-01 10:00:00"
      "photo.exe" rfl (by decide)⟩

/-- C10: whenever the proof upload is absent (or carries an empty
filename) or its filename is rejected by allowed_file, the app.py report
route leaves the whole state unchanged -- no item persisted, no file
saved, no id returned; moreover any filename with no dot is rejected by
allowed_file. -/
theorem no_accepted_upload_no_effect
    (st : AppState) (sub : AppSubmission) (now : String)
    (h : sub.proof = none ∨ ∃ f, sub.proof = some f ∧ allowed_file f = false) :
    report st sub now = (st, none) ∧
    ∀ g : String, g.data.contains '.' = false → allowed_file g = false := by
  refine ⟨?_, ?_⟩
  · rcases h with h | ⟨f, hf, hrej⟩
    · simp [report, h]
    · simp [report, hf, hrej]
  · intro g hg
    simp only [allowed_file, hg, Bool.false_and]

/-- Witness for no_accepted_upload_no_effect at the no-upload scenario. -/
theorem no_accepted_upload_no_effect_wit :
    report emptyAppState walletSub "2024-01-01 10:00:00" = (emptyAppState, none) ∧
    ∀ g : String, g.data.contains '.' = false → allowed_file g = false :=
  no_accepted_upload_no_effect emptyAppState walletSub "2024-01-01 10:00:00"
    (Or.inl rfl)

/-! ## Helper lemmas about the update route -/


lemma find_setStatus (l : List Item) (i : Nat) (ns : String) (it : Item)
    (h : l.find? (fun x => x.id == i) = some it) :
    (setStatusAll l i ns).find? (fun x => x.id == i) = some { it with status := ns } := by
  induction l with
  | nil => simp at h
  | cons a t ih =>
    cases ha : (a.id == i) with
    | true =>
      simp only [List.find?, ha] at h
      have haeq : a = it := by injection h
      subst haeq
      simp [setStatusAll, List.find?, ha]
    | false =>
      simp only [List.find?, ha] at h
      have hrest := ih h
      simp only [setStatusAll, List.map_cons, ha, if_false, Bool.false_eq_true,
        if_neg] at hrest ⊢
      simp only [List.find?, ha, hrest]

lemma update_ok_full (st : ItemStore) (i : Nat) (ns : String) (it : Item)
    (h : getById st i = some it) :
    ∃ st', update st i ns = Except.ok st' ∧
      getById st' i = some { it with status := ns } ∧
      st'.nextId = st.nextId ∧
      st'.items.length = st.items.length ∧
      ∀ j (hj : j < st.items.length) (hj2 : j < st'.items.length),
        st.items[j].id ≠ i → st'.items[j] = st.items[j] := by
  unfold getById at h
  apply Exists.intro { st with items := setStatusAll st.items i ns }
  refine ⟨?_, ?_, rfl, by simp [setStatusAll], ?_⟩
  · simp [update, h, setStatusAll]
  · exact find_setStatus st.items i ns it h
  · intro j hj hj2 hne
    simp only [setStatusAll, List.getElem_map]
    rw [if_neg (by simpa using hne)]

/-! ## C4: update overwrites only the status field -/

/-- C4: for every existing id and new status, the update route succeeds
and overwrites only the status field: getById afterwards returns the old
item with only status replaced (so id, item_name, description,
reported_by, contact_info, proof and address keep their previous
values), the table keeps its length, and every row whose id differs from
the target is completely untouched. -/
theorem update_overwrites_only_status
    (st : ItemStore) (i : Nat) (ns : String) (it : Item)
    (h : getById st i = some it) :
    ∃ st', update st i ns = Except.ok st' ∧
      getById st' i = some { it with status := ns } ∧
      st'.nextId = st.nextId ∧
      st'.items.length = st.items.length ∧
      ∀ j (hj : j < st.items.length) (hj2 : j < st'.items.length),
        st.items[j].id ≠ i → st'.items[j] = st.items[j] :=
  update_ok_full st i ns it h

/-- Witness for update_overwrites_only_status: updating sampleItem to
Found in the one-row table. -/
theorem update_overwrites_only_status_wit :
    getById oneItemStore 1 = some sampleItem ∧
    ∃ st', update oneItemStore 1 "Found" = Except.ok st' ∧
      getById st' 1 = some { sampleItem with status := "Found" } ∧
      st'.nextId = oneItemStore.nextId ∧
      st'.items.length = oneItemStore.items.length ∧
      ∀ j (hj : j < oneItemStore.items.length) (hj2 : j < st'.items.length),
        oneItemStore.items[j].id ≠ 1 → st'.items[j] = oneItemStore.items[j] :=
  ⟨rfl, update_overwrites_only_status oneItemStore 1 "Found" sampleItem rfl⟩

/-! ## C5: update does not validate the new status -/

/-- C5 counterexample: updating an existing id with status "Banana",
which is neither Lost nor Found, does not fail with ValidationError:
the call succeeds and the record is overwritten with status "Banana". -/
theorem update_accepts_any_status_cex :
    update oneItemStore 1 "Banana" =
      Except.ok { items := [{ sampleItem with status := "Banana" }], nextId := 2 } := by
  rfl

/-- C5 (amended): the update route validates nothing: for every existing
id and every string newStatus, enum value or not, it succeeds and writes
newStatus into the status field of that record. -/
theorem update_does_not_validate_status
    (st : ItemStore) (i : Nat) (ns : String) (it : Item)
    (h : getById st i = some it) :
    ∃ st', update st i ns = Except.ok st' ∧
      getById st' i = some { it with status := ns } := by
  obtain ⟨st', h1, h2, _⟩ := update_ok_full st i ns it h
  exact ⟨st', h1, h2⟩

/-- Witness for update_does_not_validate_status at the non-enum status
"Banana". -/
theorem update_does_not_validate_status_wit :
    getById oneItemStore 1 = some sampleItem ∧
    ∃ st', update oneItemStore 1 "Banana" = Except.ok st' ∧
      getById st' 1 = some { sampleItem with status := "Banana" } :=
  ⟨rfl, update_does_not_validate_status oneItemStore 1 "Banana" sampleItem rfl⟩

/-! ## C6: update on a missing id -/

/-- C6: updating an id with no corresponding record fails with NotFound
(get_or_404 aborts the request) and mutates nothing: the request leaves
the store exactly as it was. -/
theorem update_missing_id_notFound
    (st : ItemStore) (i : Nat) (ns : String) (h : getById st i = none) :
    update st i ns = Except.error UpdateError.notFound ∧
    runOp st (StoreOp.updateOp i ns) = st := by
  unfold getById at h
  refine ⟨by simp [update, h], by simp [runOp, update, h]⟩

/-- Witness for update_missing_id_notFound at id 99, absent from the
one-row table. -/
theorem update_missing_id_notFound_wit :
    update oneItemStore 99 "Found" = Except.error UpdateError.notFound ∧
    runOp oneItemStore (StoreOp.updateOp 99 "Found") = oneItemStore :=
  update_missing_id_notFound oneItemStore 99 "Found" rfl

/-! ## C3: empty item_name is not validated -/

/-- C3 counterexample: submitting a report whose item_name is the empty
string to the safety.py / search.py report route raises no
ValidationError and does add a record: the empty table grows to one row
whose item_name is the empty string. -/
theorem empty_item_name_creates_record_cex :
    (reportItem emptyItemStore { lampSub with item_name := "" }).1.items.length = 1 ∧
    getById (reportItem emptyItemStore { lampSub with item_name := "" }).1 1 =
      some { id := 1, item_name := "", description := "Small silver lamp"
             reported_by := "Bob", contact_info := "bob@example.com"
             status := "Lost", proof := some "receipt", address := some "Room 101" } := by
  exact ⟨rfl, rfl⟩

/-- C3 (amended): the report route performs no validation: a submission
whose item_name is empty still creates exactly one new record, carrying
the empty item_name, and no error is raised. -/
theorem reportItem_no_validation
    (st : ItemStore) (sub : ItemSubmission) (h : sub.item_name = "") :
    (reportItem st sub).1.items = st.items ++
      [{ id := st.nextId, item_name := "", description := sub.description
         reported_by := sub.reported_by, contact_info := sub.contact_info
         status := "Lost", proof := some sub.proof, address := some sub.address }] := by
  simp [reportItem, h]

/-- Witness for reportItem_no_validation at the empty-name submission. -/
theorem reportItem_no_validation_wit :
    (reportItem emptyItemStore { lampSub with item_name := "" }).1.items =
      emptyItemStore.items ++
      [{ id := emptyItemStore.nextId, item_name := ""
         description := "Small silver lamp"
         reported_by := "Bob", contact_info := "bob@example.com"
         status := "Lost", proof := some "receipt", address := some "Room 101" }] :=
  reportItem_no_validation emptyItemStore { lampSub with item_name := "" } rfl

/-! ## Order lemmas for the date ordering -/

lemma charListLe_total : ∀ a b : List Char, (charListLe a b || charListLe b a) = true
  | [], _ => by simp [charListLe]
  | _ :: _, [] => by simp [charListLe]
  | a :: as, b :: bs => by
    simp only [charListLe]
    rcases lt_trichotomy a b with h | h | h
    · simp [h, not_lt.mpr (le_of_lt h)]
    · subst h
      simp only [lt_irrefl, if_false]
      simpa using charListLe_total as bs
    · simp [h, not_lt.mpr (le_of_lt h)]

lemma charListLe_trans : ∀ a b c : List Char,
    charListLe a b = true → charListLe b c = true → charListLe a c = true
  | [], _, _, _, _ => by simp [charListLe]
  | _ :: _, [], _, h, _ => by simp [charListLe] at h
  | _ :: _, _ :: _, [], _, h => by simp [charListLe] at h
  | a :: as, b :: bs, c :: cs, h1, h2 => by
    simp only [charListLe] at h1 h2 ⊢
    rcases lt_trichotomy a b with hab | hab | hab
    · rcases lt_trichotomy b c with hbc | hbc | hbc
      · simp [lt_trans hab hbc]
      · subst hbc; simp [hab]
      · simp [lt_asymm hbc, hbc] at h2
    · subst hab
      rcases lt_trichotomy a c with hac | hac | hac
      · simp [hac]
      · subst hac
        simp only [lt_irrefl, if_false] at h1 h2 ⊢
        exact charListLe_trans as bs cs h1 h2
      · simp [lt_asymm hac, hac] at h2
    · simp [lt_asymm hab, hab] at h1

lemma sorted_sortByDateDesc (store : List ReportedItem) :
    List.Pairwise (fun a b => dateLe b.date a.date = true) (sortByDateDesc store) := by
  have h := @List.sorted_mergeSort ReportedItem
    (fun a b : ReportedItem => dateLe b.date a.date)
    (fun a b c h1 h2 => charListLe_trans _ _ _ h2 h1)
    (fun a b => charListLe_total _ _)
    store
  exact h

/-! ## C8: the dashboard read-model -/

/-- C8: the dashboard route returns exactly the count of Lost items, the
count of Found items, and an at-most-5 list of most recent items: its
recent_activity has length min 5 (size of the table), is ordered by date
descending, and together with some remainder is a permutation of the
table in which everything left out has a date no later than everything
shown. -/
theorem dashboard_spec (store : List ReportedItem) :
    (dashboard store).total_lost = store.countP (fun it => it.status == "Lost") ∧
    (dashboard store).total_found = store.countP (fun it => it.status == "Found") ∧
    (dashboard store).recent_activity.length = min 5 store.length ∧
    List.Pairwise (fun a b => dateLe b.date a.date = true)
      (dashboard store).recent_activity ∧
    ∃ rest, ((dashboard store).recent_activity ++ rest).Perm store ∧
      ∀ x ∈ (dashboard store).recent_activity, ∀ y ∈ rest,
        dateLe y.date x.date = true := by
  have hperm : (sortByDateDesc store).Perm store := List.mergeSort_perm store _
  have hsorted := sorted_sortByDateDesc store
  refine ⟨?_, ?_, ?_, ?_, ?_⟩
  · simp [dashboard, List.countP_eq_length_filter]
  · simp [dashboard, List.countP_eq_length_filter]
  · simp [dashboard, List.length_take, hperm.length_eq]
  · exact List.Pairwise.sublist (List.take_sublist 5 _) hsorted
  · refine ⟨(sortByDateDesc store).drop 5, ?_, ?_⟩
    · rw [show (dashboard store).recent_activity = (sortByDateDesc store).take 5 from rfl]
      rw [List.take_append_drop]
      exact hperm
    · intro x hx y hy
      have h2 : List.Pairwise (fun a b => dateLe b.date a.date = true)
          ((sortByDateDesc store).take 5 ++ (sortByDateDesc store).drop 5) := by
        rw [List.take_append_drop]
        exact hsorted
      exact (List.pairwise_append.mp h2).2.2 x hx y hy

/-! ## C9: the date field -/

lemma report_created_item (st st' : AppState) (sub : AppSubmission)
    (now : String) (i : Nat) (h : report st sub now = (st', some i)) :
    ∃ it : ReportedItem, st'.store = st.store ++ [it] ∧ it.date = now ∧
      it.id = i ∧ i = st.nextId := by
  unfold report at h
  split at h
  next => simp at h
  next =>
    split at h
    next hc =>
      simp only [Prod.mk.injEq, Option.some.injEq] at h
      obtain ⟨h1, h2⟩ := h
      refine ⟨_, by rw [← h1], rfl, h2, h2.symm⟩
    next hc => simp at h

lemma report_none_unchanged (st st' : AppState) (sub : AppSubmission)
    (now : String) (h : report st sub now = (st', none)) : st' = st := by
  unfold report at h
  split at h
  · simp only [Prod.mk.injEq] at h
    exact h.1.symm
  · split at h
    · simp at h
    · simp only [Prod.mk.injEq] at h
      exact h.1.symm

lemma report_store_cases (st : AppState) (sub : AppSubmission) (now : String) :
    (report st sub now).1.store = st.store ∨
    ∃ it : ReportedItem, (report st sub now).1.store = st.store ++ [it] ∧
      it.date = now := by
  cases hr : report st sub now with
  | mk st' oid =>
    cases oid with
    | none =>
      left
      rw [report_none_unchanged st st' sub now hr]
    | some i =>
      right
      obtain ⟨it, h1, h2, _⟩ := report_created_item st st' sub now i hr
      exact ⟨it, h1, h2⟩

lemma appTrace_extends : ∀ (ops : List (AppSubmission × String)) (st : AppState),
    ∃ added, (appTrace st ops).store = st.store ++ added
  | [], st => ⟨[], by simp [appTrace]⟩
  | p :: rest, st => by
    have hunf : appTrace st (p :: rest) = appTrace (report st p.1 p.2).1 rest := by
      simp [appTrace]
    obtain ⟨added, ih⟩ := appTrace_extends rest (report st p.1 p.2).1
    rcases report_store_cases st p.1 p.2 with h | ⟨it, h, _⟩
    · exact ⟨added, by rw [hunf, ih, h]⟩
    · exact ⟨it :: added, by rw [hunf, ih, h, List.append_assoc]; rfl⟩

lemma appTrace_dates_sublist :
    ∀ (ops : List (AppSubmission × String)) (st : AppState),
    ((appTrace st ops).store.map ReportedItem.date).Sublist
      ((st.store.map ReportedItem.date) ++ ops.map Prod.snd)
  | [], st => by simp [appTrace]
  | p :: rest, st => by
    have hunf : appTrace st (p :: rest) = appTrace (report st p.1 p.2).1 rest := by
      simp [appTrace]
    have ih := appTrace_dates_sublist rest (report st p.1 p.2).1
    rw [hunf]
    refine ih.trans ?_
    rcases report_store_cases st p.1 p.2 with h | ⟨it, h, hdate⟩
    · rw [h]
      simp only [List.map_cons]
      exact List.Sublist.append_left (List.sublist_cons_self _ _) _
    · rw [h, List.map_append]
      simp only [List.map_cons, List.map_nil, hdate]
      rw [List.append_assoc]
      simp

/-- C9: dates are set once, at creation, and are monotone.  Every run of
report requests only appends to the table, so existing rows (and their
date fields) are never modified; a successful report creates exactly one
row whose date is the timestamp passed for that request; and when the
timestamps of the requests are non-decreasing (datetime.now is monotone),
the dates stored in the table, in creation order, are non-decreasing. -/
theorem date_set_once_and_monotone (ops : List (AppSubmission × String))
    (hmono : List.Pairwise (fun a b : String => dateLe a b = true)
      (ops.map Prod.snd)) :
    (∀ st : AppState, ∃ added, (appTrace st ops).store = st.store ++ added) ∧
    (∀ (st st' : AppState) (sub : AppSubmission) (now : String) (i : Nat),
      report st sub now = (st', some i) →
      ∃ it : ReportedItem, st'.store = st.store ++ [it] ∧ it.date = now ∧
        it.id = i) ∧
    List.Pairwise (fun a b : ReportedItem => dateLe a.date b.date = true)
      (appTrace emptyAppState ops).store := by
  refine ⟨fun st => appTrace_extends ops st, ?_, ?_⟩
  · intro st st' sub now i h
    obtain ⟨it, h1, h2, h3, _⟩ := report_created_item st st' sub now i h
    exact ⟨it, h1, h2, h3⟩
  · have hsub := appTrace_dates_sublist ops emptyAppState
    simp only [emptyAppState, List.map_nil, List.nil_append] at hsub
    have hp : List.Pairwise (fun a b : String => dateLe a b = true)
        ((appTrace emptyAppState ops).store.map ReportedItem.date) :=
      List.Pairwise.sublist hsub hmono
    exact List.pairwise_map.mp hp


/-- Witness for date_set_once_and_monotone on monoOps. -/
theorem date_set_once_and_monotone_wit :
    List.Pairwise (fun a b : ReportedItem => dateLe a.date b.date = true)
      (appTrace emptyAppState monoOps).store :=
  (date_set_once_and_monotone monoOps (by decide)).2.2

/-! ## C2: the status stored for a new report -/

lemma find_append_fresh (l : List ReportedItem) (n : Nat) (new : ReportedItem)
    (hlt : ∀ it ∈ l, it.id < n) (hnew : new.id = n) :
    getByIdApp (l ++ [new]) n = some new := by
  unfold getByIdApp
  rw [List.find?_append]
  have h1 : l.find? (fun it => it.id == n) = none := by
    rw [List.find?_eq_none]
    intro x hx
    simpa using Nat.ne_of_lt (hlt x hx)
  rw [h1]
  simp [List.find?, hnew]

lemma find_append_fresh_item (l : List Item) (n : Nat) (new : Item)
    (hlt : ∀ it ∈ l, it.id < n) (hnew : new.id = n) :
    (l ++ [new]).find? (fun it => it.id == n) = some new := by
  rw [List.find?_append]
  have h1 : l.find? (fun it => it.id == n) = none := by
    rw [List.find?_eq_none]
    intro x hx
    simpa using Nat.ne_of_lt (hlt x hx)
  rw [h1]
  simp [List.find?, hnew]

/-- C2 counterexample: the spec scenario submission -- Wallet, Black
leather, status Lost, no upload -- is a valid submission, yet the app.py
report route returns no id at all and creates nothing; getById of a new
id is therefore impossible. -/
theorem valid_submission_no_id_cex :
    report emptyAppState walletSub "2024-01-01 10:00:00" = (emptyAppState, none) ∧
    walletSub.item_name ≠ "" ∧ walletSub.description ≠ "" ∧
    walletSub.status = "Lost" ∧ walletSub.proof = none := by
  exact ⟨rfl, by decide, by decide, rfl, rfl⟩

/-- C2 (amended): whenever submitReport does create an item, the stored
status is as claimed.  In app.py -- where creation happens exactly when
the submission carries an upload with a non-empty, whitelisted filename
-- report returns the new id and getById of that id yields an item whose
status equals the submitted status.  In the safety.py / search.py
variant the submission carries no status field at all and getById of the
new id yields an item whose status is the default "Lost". -/
theorem submitReport_status_stored :
    (∀ (st : AppState) (sub : AppSubmission) (now f : String),
      (∀ it ∈ st.store, it.id < st.nextId) → sub.proof = some f → f ≠ "" →
      allowed_file f = true →
      ∃ st', report st sub now = (st', some st.nextId) ∧
        ∃ it, getByIdApp st'.store st.nextId = some it ∧
          it.status = sub.status) ∧
    (∀ (st : ItemStore) (sub : ItemSubmission),
      (∀ it ∈ st.items, it.id < st.nextId) →
      ∃ it, getById (reportItem st sub).1 (reportItem st sub).2 = some it ∧
        it.status = "Lost") := by
  constructor
  · intro st sub now f hfresh hf hne hok
    apply Exists.intro { store := st.store ++ [{ id := st.nextId, item_name := sub.item_name, description := sub.description, status := sub.status, reported_by := "Anonymous", address := sub.address, date := now, proof := secure_filename f }], nextId := st.nextId + 1, savedFiles := st.savedFiles ++ [secure_filename f] }
    constructor
    · simp only [report, hf]
      rw [if_pos (by simp [hne, hok])]
    · apply Exists.intro { id := st.nextId, item_name := sub.item_name, description := sub.description, status := sub.status, reported_by := "Anonymous", address := sub.address, date := now, proof := secure_filename f }
      exact ⟨find_append_fresh st.store st.nextId _ hfresh rfl, rfl⟩
  · intro st sub hfresh
    apply Exists.intro { id := st.nextId, item_name := sub.item_name, description := sub.description, reported_by := sub.reported_by, contact_info := sub.contact_info, status := "Lost", proof := some sub.proof, address := some sub.address }
    refine ⟨?_, rfl⟩
    unfold getById reportItem
    exact find_append_fresh_item st.items st.nextId _ hfresh rfl

/-- Witness for submitReport_status_stored: a jpg-upload submission on
the empty app.py database and a plain submission on the empty
safety.py / search.py database. -/
theorem submitReport_status_stored_wit :
    (∃ st', report emptyAppState jpgSub "2024-01-01 10:00:00" =
        (st', some emptyAppState.nextId) ∧
      ∃ it, getByIdApp st'.store emptyAppState.nextId = some it ∧
        it.status = jpgSub.status) ∧
    (∃ it, getById (reportItem emptyItemStore lampSub).1
        (reportItem emptyItemStore lampSub).2 = some it ∧
      it.status = "Lost") :=
  ⟨(submitReport_status_stored).1 emptyAppState jpgSub "2024-01-01 10:00:00"
      "photo.jpg" (by intro it hit; simp [emptyAppState] at hit) rfl
      (by decide) (by decide),
   (submitReport_status_stored).2 emptyItemStore lampSub
      (by intro it hit; simp [emptyItemStore] at hit)⟩

/-! ## C7: which statuses are reachable -/


/-- C7 counterexample: the update route persists the non-enum status
"Banana", so after the two-request run banOps the store holds one item
whose status is neither Lost nor Found, and the two status counts add up
to 0 while the listing has length 1. -/
theorem status_enum_invariant_cex :
    countItemsByStatus (runOps emptyItemStore banOps) "Lost" +
      countItemsByStatus (runOps emptyItemStore banOps) "Found" = 0 ∧
    (listAll (runOps emptyItemStore banOps)).length = 1 ∧
    (runOps emptyItemStore banOps).items.map Item.status = ["Banana"] := by
  exact ⟨rfl, rfl, rfl⟩


lemma runOp_status_ok (st : ItemStore) (op : StoreOp)
    (hst : ∀ it ∈ st.items, it.status = "Lost" ∨ it.status = "Found")
    (hop : opStatusOk op) :
    ∀ it ∈ (runOp st op).items, it.status = "Lost" ∨ it.status = "Found" := by
  cases op with
  | reportOp sub =>
    intro it hit
    simp only [runOp, reportItem] at hit
    rcases List.mem_append.mp hit with h | h
    · exact hst it h
    · simp only [List.mem_singleton] at h
      subst h
      left
      rfl
  | updateOp i ns =>
    intro it hit
    simp only [runOp] at hit
    cases hfind : st.items.find? (fun x => x.id == i) with
    | none => rw [update, hfind] at hit; exact hst it hit
    | some x =>
      rw [update, hfind] at hit
      simp only [List.mem_map] at hit
      obtain ⟨y, hy, hmap⟩ := hit
      by_cases hid : (y.id == i) = true
      · rw [if_pos hid] at hmap
        subst hmap
        exact hop
      · rw [if_neg hid] at hmap
        subst hmap
        exact hst y hy

lemma runOps_status_ok (ops : List StoreOp) :
    ∀ st : ItemStore,
      (∀ it ∈ st.items, it.status = "Lost" ∨ it.status = "Found") →
      (∀ op ∈ ops, opStatusOk op) →
      ∀ it ∈ (runOps st ops).items, it.status = "Lost" ∨ it.status = "Found" := by
  induction ops with
  | nil =>
    intro st hst _
    simpa [runOps] using hst
  | cons op rest ih =>
    intro st hst hops
    have h1 := runOp_status_ok st op hst (hops op (List.mem_cons_self op rest))
    have h2 := ih (runOp st op) h1 (fun o ho => hops o (List.mem_cons_of_mem op ho))
    simpa [runOps] using h2

lemma count_lost_found (l : List Item)
    (h : ∀ it ∈ l, it.status = "Lost" ∨ it.status = "Found") :
    (l.filter (fun it => it.status == "Lost")).length +
      (l.filter (fun it => it.status == "Found")).length = l.length := by
  induction l with
  | nil => simp
  | cons a t ih =>
    have ht := ih (fun it hit => h it (List.mem_cons_of_mem a hit))
    have e1 : (("Lost" : String) == "Found") = false := by decide
    have e2 : (("Found" : String) == "Lost") = false := by decide
    rcases h a (List.mem_cons_self a t) with ha | ha <;>
      simp [List.filter_cons, ha, e1, e2, ht] <;> omega

/-- C7 (amended): after any run of report and update requests from the
empty store in which every update carries one of the two enum statuses,
every persisted item has status Lost or Found, and
countByStatus(Lost) + countByStatus(Found) equals the length of
listAll.  Without that restriction the invariant fails, since update
persists arbitrary strings. -/
theorem status_enum_invariant (ops : List StoreOp)
    (hops : ∀ op ∈ ops, opStatusOk op) :
    (∀ it ∈ (runOps emptyItemStore ops).items,
      it.status = "Lost" ∨ it.status = "Found") ∧
    countItemsByStatus (runOps emptyItemStore ops) "Lost" +
      countItemsByStatus (runOps emptyItemStore ops) "Found" =
      (listAll (runOps emptyItemStore ops)).length := by
  have h := runOps_status_ok ops emptyItemStore
    (by intro it hit; simp [emptyItemStore] at hit) hops
  refine ⟨h, ?_⟩
  unfold countItemsByStatus listAll
  exact count_lost_found _ h


/-- Witness for status_enum_invariant on goodOps. -/
theorem status_enum_invariant_wit :
    (∀ it ∈ (runOps emptyItemStore goodOps).items,
      it.status = "Lost" ∨ it.status = "Found") ∧
    countItemsByStatus (runOps emptyItemStore goodOps) "Lost" +
      countItemsByStatus (runOps emptyItemStore goodOps) "Found" =
      (listAll (runOps emptyItemStore goodOps)).length :=
  status_enum_invariant goodOps (by
    intro op hop
    rcases List.mem_cons.mp hop with h | h
    · subst h; exact True.intro
    · rcases List.mem_cons.mp h with h2 | h2
      · subst h2; exact Or.inr rfl
      · simp at h2)
